import Mathlib

/-
Verification of the batch PDF-compression pipeline (DFofanov/compress).

Shallow embedding of the Go source:
  * Go `int`/`int64` are modelled as `Int`, `float64` as `ℚ` (the source only
    ever forms exact quotients and products by 100, so the rational value is
    the intended real value of the float expression).
  * Go `error` values are modelled by the inductive `GoErr`; `fmt.Errorf`
    with a `%w` verb is `GoErr.wrap`, `errors.New` is `GoErr.msg`, and raw
    OS errors are `GoErr.os`.
  * Nil-able Go pointers are `Option`; a nil-pointer dereference is made
    explicit in the embedding (`WorkerStep.panicked`).
  * Filesystem state is `FS := String → Option Content` with contents
    abstracted to identifiers; `os.Rename`/`os.Remove` are modelled with an
    explicit injected-failure environment, failures leaving the state
    unchanged (rename atomicity).
-/

namespace Compress

/-- Go `error` values: `errors.New` messages, OS error codes, and
`fmt.Errorf("...: %w", err)` wrapping. -/
inductive GoErr where
  | msg : String → GoErr
  | os : Nat → GoErr
  | wrap : String → GoErr → GoErr
deriving DecidableEq, Repr

/-- Source `entities.ErrNoFilesFound = errors.New("PDF файлы не найдены")`. -/
def ErrNoFilesFound : GoErr := .msg "PDF файлы не найдены"

/-- Source `entities.ErrDirectoryNotFound = errors.New("директория не найдена")`. -/
def ErrDirectoryNotFound : GoErr := .msg "директория не найдена"

/-- Source `entities.CompressionResult` (internal/domain/entities, part_001).
Sizes are `int64` (→ `Int`), the ratio is `float64` (→ `ℚ`),
`Error` is a nil-able `error` (→ `Option GoErr`). -/
structure CompressionResult where
  CurrentFile      : String := ""
  OriginalSize     : Int := 0
  CompressedSize   : Int := 0
  CompressionRatio : ℚ := 0
  SavedSpace       : Int := 0
  Success          : Bool := false
  Error            : Option GoErr := none
deriving DecidableEq, Repr

/-- Source `CompressionResult.CalculateCompressionRatio` (part_001 lines 27-32):
`if cr.OriginalSize > 0 { ratio = (orig-comp)/orig*100; saved = orig-comp }`,
fields untouched otherwise. -/
def CompressionResult.CalculateCompressionRatio (cr : CompressionResult) : CompressionResult :=
  if 0 < cr.OriginalSize then
    { cr with
      CompressionRatio :=
        ((cr.OriginalSize : ℚ) - (cr.CompressedSize : ℚ)) / (cr.OriginalSize : ℚ) * 100
      SavedSpace := cr.OriginalSize - cr.CompressedSize }
  else cr

/-- Source `entities.ProcessingPhase` (app_config.go lines 91-100). -/
inductive ProcessingPhase where
  | PhaseInitializing
  | PhaseScanning
  | PhaseCompressing
  | PhaseReplacing
  | PhaseCompleted
  | PhaseFailed
deriving DecidableEq, Repr

/-- Source `entities.ProcessingStatus` (app_config.go lines 50-88).  The wall-clock
fields (`StartTime`, `ElapsedTime`, `EstimatedTime`) are outside the
embedding: no claim mentions them and they carry no program logic beyond
`time.Since`. -/
structure ProcessingStatus where
  Phase : ProcessingPhase := .PhaseInitializing
  CurrentFile : String := ""
  CurrentFileSize : Int := 0
  TotalFiles : Int := 0
  ProcessedFiles : Int := 0
  SuccessfulFiles : Int := 0
  FailedFiles : Int := 0
  SkippedFiles : Int := 0
  Progress : ℚ := 0
  TotalOriginalSize : Int := 0
  TotalCompressedSize : Int := 0
  TotalSavedSpace : Int := 0
  AverageCompression : ℚ := 0
  LastResult : Option CompressionResult := none
  IsComplete : Bool := false
  Error : Option GoErr := none
  Message : String := ""
deriving DecidableEq, Repr

/-- Source `entities.NewProcessingStatus` (app_config.go lines 149-155): phase
`Initializing`, the given total, everything else zero-valued. -/
def NewProcessingStatus (totalFiles : Int) : ProcessingStatus :=
  { TotalFiles := totalFiles }

/-- Source `ProcessingStatus.UpdateProgress` (app_config.go lines 158-171), the
percentage part; the `ElapsedTime`/`EstimatedTime` recomputation is
wall-clock and outside the embedding. -/
def ProcessingStatus.UpdateProgress (ps : ProcessingStatus) : ProcessingStatus :=
  if 0 < ps.TotalFiles then
    { ps with Progress := (ps.ProcessedFiles : ℚ) / (ps.TotalFiles : ℚ) * 100 }
  else ps

/-- Source `ProcessingStatus.AddResult` (app_config.go lines 174-193): increment
`ProcessedFiles`, store `LastResult`, then route on
`result.Success && result.Error == nil`; on success accumulate the three
byte totals and, when the cumulative original total is positive, recompute
`AverageCompression` from the cumulative totals; otherwise increment
`FailedFiles`.  Ends with `UpdateProgress`. -/
def ProcessingStatus.AddResult (ps : ProcessingStatus) (result : CompressionResult) :
    ProcessingStatus :=
  let ps1 := { ps with ProcessedFiles := ps.ProcessedFiles + 1, LastResult := some result }
  let ps2 :=
    if result.Success = true ∧ result.Error = none then
      let psa := { ps1 with
        SuccessfulFiles := ps1.SuccessfulFiles + 1
        TotalOriginalSize := ps1.TotalOriginalSize + result.OriginalSize
        TotalCompressedSize := ps1.TotalCompressedSize + result.CompressedSize
        TotalSavedSpace := ps1.TotalSavedSpace + result.SavedSpace }
      if 0 < psa.TotalOriginalSize then
        { psa with AverageCompression :=
            ((psa.TotalOriginalSize : ℚ) - (psa.TotalCompressedSize : ℚ)) /
              (psa.TotalOriginalSize : ℚ) * 100 }
      else psa
    else { ps1 with FailedFiles := ps1.FailedFiles + 1 }
  ps2.UpdateProgress

/-- Source `ProcessingStatus.SetPhase` (app_config.go lines 196-199). -/
def ProcessingStatus.SetPhase (ps : ProcessingStatus) (phase : ProcessingPhase)
    (message : String) : ProcessingStatus :=
  { ps with Phase := phase, Message := message }

/-- Source `ProcessingStatus.SetCurrentFile` (app_config.go lines 202-205). -/
def ProcessingStatus.SetCurrentFile (ps : ProcessingStatus) (filePath : String)
    (size : Int) : ProcessingStatus :=
  { ps with CurrentFile := filePath, CurrentFileSize := size }

/-- Source `ProcessingStatus.Complete` (app_config.go lines 208-214), minus the
wall-clock fields. -/
def ProcessingStatus.Complete (ps : ProcessingStatus) : ProcessingStatus :=
  { ps with IsComplete := true, Phase := .PhaseCompleted, Progress := 100 }

/-- Source `ProcessingStatus.Fail` (app_config.go lines 217-222), minus the
wall-clock fields. -/
def ProcessingStatus.Fail (ps : ProcessingStatus) (err : GoErr) : ProcessingStatus :=
  { ps with IsComplete := true, Phase := .PhaseFailed, Error := some err }

/-- Feeding a stream of worker results to the aggregator in arrival order:
the result-collection loop of `ProcessPDFsUseCase.Execute` (part_006 lines
163-187) calls `status.AddResult(result)` once per received result. -/
def addResults (ps : ProcessingStatus) (rs : List CompressionResult) : ProcessingStatus :=
  rs.foldl ProcessingStatus.AddResult ps

/-!  Worker retry loop (`ProcessPDFsUseCase.worker`, part_006 lines 279-303).

The compressor port `Compress(input, output, cfg) (*CompressionResult, error)`
is modelled as a function of the attempt index returning the Go pair
(nil-able result pointer, nil-able error); the fixed two-second
`time.Sleep` between failed non-final attempts is counted rather than
performed.  -/

/-- Outcome of one per-job worker iteration: either a `CompressionResult`
published to the results channel, or a nil-pointer dereference (the Go code
reads `result.CurrentFile` with `result == nil`).  `calls` counts
`uc.compressor.Compress` invocations, `sleeps` counts `time.Sleep`s. -/
inductive WorkerStep where
  | published (outcome : CompressionResult) (calls sleeps : Nat)
  | panicked (calls sleeps : Nat)
deriving DecidableEq, Repr

/-- The retry loop of `worker` (part_006 lines 279-293):
`for attempt := 0; attempt < retryAttempts; attempt++ { result, err =
Compress(...); if err == nil { break }; if attempt < retryAttempts-1 {
warn; sleep } }`.  `result`/`err` are the Go loop variables, `calls` and
`sleeps` instrument the loop. -/
def workerRetryLoop (compress : Nat → Option CompressionResult × Option GoErr)
    (retryAttempts : Int) (attempt : Nat)
    (result : Option CompressionResult) (err : Option GoErr)
    (calls sleeps : Nat) :
    Option CompressionResult × Option GoErr × Nat × Nat :=
  if h : (attempt : Int) < retryAttempts then
    match (compress attempt).2 with
    | none => ((compress attempt).1, none, calls + 1, sleeps)
    | some e =>
      if (attempt : Int) < retryAttempts - 1 then
        workerRetryLoop compress retryAttempts (attempt + 1)
          (compress attempt).1 (some e) (calls + 1) (sleeps + 1)
      else
        workerRetryLoop compress retryAttempts (attempt + 1)
          (compress attempt).1 (some e) (calls + 1) sleeps
  else (result, err, calls, sleeps)
termination_by (retryAttempts - attempt).toNat
decreasing_by
  all_goals omega

/-- One iteration of `worker`'s per-job body in the `ReplaceOriginal=false`
path, from `GetFileInfo` through publishing on the results channel
(part_006 lines 267-330): a `GetFileInfo` error publishes a wrapped
failure; otherwise the retry loop runs with `err` initially nil;
a final non-nil `err` publishes a fresh failure record carrying it and the
stat size; otherwise the code dereferences the `result` pointer (panicking
when it is still nil because the loop ran zero times), sets
`CurrentFile`/`OriginalSize` and recomputes the derived fields. -/
def workerProcessFile (fileInfo : Except GoErr Int)
    (compress : Nat → Option CompressionResult × Option GoErr)
    (retryAttempts : Int) (inputFile : String) : WorkerStep :=
  match fileInfo with
  | .error e =>
      .published { CurrentFile := inputFile, Success := false,
                   Error := some (.wrap "ошибка получения информации о файле" e) } 0 0
  | .ok size =>
      match workerRetryLoop compress retryAttempts 0 none none 0 0 with
      | (result, err, calls, sleeps) =>
        match err with
        | some e =>
            .published { CurrentFile := inputFile, OriginalSize := size,
                         Success := false, Error := some e } calls sleeps
        | none =>
          match result with
          | none => .panicked calls sleeps
          | some r =>
              .published
                (CompressionResult.CalculateCompressionRatio
                  { r with CurrentFile := inputFile, OriginalSize := size })
                calls sleeps

/-!  Replacement protocol (`ProcessPDFsUseCase.replaceOriginalFile`,
part_006 lines 334-376). -/

/-- File contents, abstracted to identifiers (the protocol only moves whole
files). -/
abbrev Content := Nat

/-- Filesystem state: which path resolves to which file. -/
abbrev FS := String → Option Content

/-- Source `os.Rename(src, dst)`: fails when a failure is injected by the
environment or when the source is missing (`ENOENT`, code 2), leaving the
filesystem unchanged; on success atomically moves the file. -/
def osRename (inject : Option GoErr) (src dst : String) (fs : FS) : Except GoErr FS :=
  match inject with
  | some e => .error e
  | none =>
    match fs src with
    | none => .error (.os 2)
    | some c => .ok fun q => if q = dst then some c else if q = src then none else fs q

/-- Source `os.Remove(p)`: fails on injected failure or missing file, leaving the
filesystem unchanged. -/
def osRemove (inject : Option GoErr) (p : String) (fs : FS) : Except GoErr FS :=
  match inject with
  | some e => .error e
  | none =>
    match fs p with
    | none => .error (.os 2)
    | some _ => .ok fun q => if q = p then none else fs q

/-- Injected OS-level failures for the four fallible calls inside
`replaceOriginalFile`, in program order. -/
structure ReplaceEnv where
  renameToBackup : Option GoErr := none
  renameTempToOriginal : Option GoErr := none
  rollbackRename : Option GoErr := none
  removeBackup : Option GoErr := none

/-- Source `ProcessPDFsUseCase.replaceOriginalFile` (part_006 lines 334-376):
check the temp file exists; rename original → backup (failure: return the
wrapped error, nothing changed); rename temp → original (failure: rename
backup back to original ignoring that rename's own error, return the
wrapped swap error); remove the backup (failure: warning only, still
success).  Returns the Go `error` and the final filesystem. -/
def replaceOriginalFile (env : ReplaceEnv) (originalFile tempFile : String) (fs : FS) :
    Except GoErr Unit × FS :=
  if (fs tempFile).isNone then
    (.error (.msg "временный файл не существует"), fs)
  else
    let backupFile := originalFile ++ ".backup"
    match osRename env.renameToBackup originalFile backupFile fs with
    | .error e => (.error (.wrap "ошибка создания резервной копии" e), fs)
    | .ok fs1 =>
      match osRename env.renameTempToOriginal tempFile originalFile fs1 with
      | .error e =>
        let fs2 :=
          match osRename env.rollbackRename backupFile originalFile fs1 with
          | .error _ => fs1
          | .ok fsr => fsr
        (.error (.wrap "ошибка замены файла" e), fs2)
      | .ok fs2 =>
        match osRemove env.removeBackup backupFile fs2 with
        | .error _ => (.ok (), fs2)
        | .ok fs3 => (.ok (), fs3)

/-!  The same protocol as a small-step relation over filesystem states, for
the crash-safety claim: each constructor is one fallible OS call of
`replaceOriginalFile`, failures chosen nondeterministically.  -/

/-- Control point of the replacement protocol between OS calls. -/
inductive RPhase where
  | start
  | backedUp
  | swapped
  | finished (ok : Bool)
deriving DecidableEq, Repr

/-- A protocol configuration: control point plus filesystem. -/
structure RConf where
  ph : RPhase
  fs : FS

/-- Successful `os.Rename(src, dst)` on a filesystem where `src` holds `c`. -/
def renameFS (src dst : String) (c : Content) (fs : FS) : FS :=
  fun q => if q = dst then some c else if q = src then none else fs q

/-- Successful `os.Remove p`. -/
def removeFS (p : String) (fs : FS) : FS :=
  fun q => if q = p then none else fs q

/-- One step of `replaceOriginalFile` for original path `orig` and temp path
`temp` (backup path `orig ++ ".backup"`), mirroring part_006 lines 334-376:
the temp-existence check, the backup rename (which may fail leaving the
state unchanged), the swap rename (whose failure triggers a rollback rename
that itself may fail, the error being ignored), and the backup removal
(whose failure is a warning only). -/
inductive RStep (orig temp : String) : RConf → RConf → Prop where
  | statMissing (fs : FS) : fs temp = none →
      RStep orig temp ⟨.start, fs⟩ ⟨.finished false, fs⟩
  | backupOk (fs : FS) (c : Content) : fs temp ≠ none → fs orig = some c →
      RStep orig temp ⟨.start, fs⟩ ⟨.backedUp, renameFS orig (orig ++ ".backup") c fs⟩
  | backupFail (fs : FS) : fs temp ≠ none →
      RStep orig temp ⟨.start, fs⟩ ⟨.finished false, fs⟩
  | swapOk (fs : FS) (t : Content) : fs temp = some t →
      RStep orig temp ⟨.backedUp, fs⟩ ⟨.swapped, renameFS temp orig t fs⟩
  | swapFailRollbackOk (fs : FS) (c : Content) : fs (orig ++ ".backup") = some c →
      RStep orig temp ⟨.backedUp, fs⟩
        ⟨.finished false, renameFS (orig ++ ".backup") orig c fs⟩
  | swapFailRollbackFail (fs : FS) :
      RStep orig temp ⟨.backedUp, fs⟩ ⟨.finished false, fs⟩
  | cleanupOk (fs : FS) (c : Content) : fs (orig ++ ".backup") = some c →
      RStep orig temp ⟨.swapped, fs⟩ ⟨.finished true, removeFS (orig ++ ".backup") fs⟩
  | cleanupFail (fs : FS) :
      RStep orig temp ⟨.swapped, fs⟩ ⟨.finished true, fs⟩

/-- Configurations the protocol can pass through from its entry
configuration: every observable point of one `replaceOriginalFile` call. -/
abbrev RReach (orig temp : String) (init : RConf) (conf : RConf) : Prop :=
  Relation.ReflTransGen (RStep orig temp) init conf

/-!  `ProcessPDFsUseCase.Execute` (part_006 lines 51-159), up to the point
where workers are spawned.  The collaborator calls (`FileExists`,
`CreateDirectory`, `ListPDFFiles`, `ValidateConfig`) are supplied by an
environment. -/

/-- The configuration fields `Execute` and `worker` read
(`entities.Config`, app_config.go lines 6-38). -/
structure GoConfig where
  ReplaceOriginal : Bool := false
  ParallelWorkers : Int := 0
  RetryAttempts : Int := 0
deriving DecidableEq, Repr

/-- Collaborator behaviour for one `ProcessPDFsUseCase.Execute` run. -/
structure PExecEnv where
  sourceExists : Bool := true
  createTargetDir : Option GoErr := none
  listPDFFiles : Except GoErr (List String) := .ok []
  validateCompression : Option GoErr := none

/-- How a run of `Execute` leaves the pre-worker prefix: `aborted` means the
function returned before `SetPhase(PhaseCompressing)` — zero workers were
started — with the given status and returned error; `launched` means it
entered the Compressing phase and spawned `workers` goroutines over
`files`. -/
inductive PExecResult where
  | aborted (status : ProcessingStatus) (ret : Option GoErr)
  | launched (status : ProcessingStatus) (workers : Nat) (files : List String)
deriving DecidableEq, Repr

/-- Number of worker goroutines spawned by the run prefix. -/
def PExecResult.workersSpawned : PExecResult → Nat
  | .aborted _ _ => 0
  | .launched _ w _ => w

/-- Whether `SetPhase(PhaseCompressing, ...)` was ever executed. -/
def PExecResult.enteredCompressing : PExecResult → Bool
  | .aborted _ _ => false
  | .launched _ _ _ => true

/-- The run's returned Go `error`. -/
def PExecResult.retErr : PExecResult → Option GoErr
  | .aborted _ r => r
  | .launched _ _ _ => none

/-- The status at the end of the prefix. -/
def PExecResult.finalStatus : PExecResult → ProcessingStatus
  | .aborted s _ => s
  | .launched s _ _ => s

/-- Source `ProcessPDFsUseCase.Execute` (part_006 lines 51-159) through worker
spawn: initialize the status; fail the run if the source directory is
missing or (in non-replace mode) the target directory cannot be created;
enter the Scanning phase; fail on a listing error; **when the listing is
empty, log a warning, mark the status `Complete()` and return `nil`**;
otherwise record the total, fail on compression-config validation error,
enter the Compressing phase and spawn `max(ParallelWorkers, 1)` workers. -/
def processPDFsExecuteSetup (env : PExecEnv) (config : GoConfig) : PExecResult :=
  let status := (NewProcessingStatus 0).SetPhase .PhaseInitializing
    "Инициализация обработки..."
  if env.sourceExists = false then
    let err := GoErr.msg "исходная директория не существует"
    .aborted (status.Fail err) (some err)
  else
    match (if config.ReplaceOriginal then none else env.createTargetDir) with
    | some e =>
      let err := GoErr.wrap "ошибка создания целевой директории" e
      .aborted (status.Fail err) (some err)
    | none =>
      let status := status.SetPhase .PhaseScanning "Сканирование PDF файлов..."
      match env.listPDFFiles with
      | .error e =>
        let err := GoErr.wrap "ошибка получения списка файлов" e
        .aborted (status.Fail err) (some err)
      | .ok files =>
        if files.length = 0 then
          .aborted status.Complete none
        else
          let status := { status with TotalFiles := (files.length : Int) }
          match env.validateCompression with
          | some e =>
            let err := GoErr.wrap "ошибка валидации конфигурации сжатия" e
            .aborted (status.Fail err) (some err)
          | none =>
            let status := status.SetPhase .PhaseCompressing "Сжатие PDF файлов..."
            let workers := if config.ParallelWorkers ≤ 0 then 1 else config.ParallelWorkers
            .launched status workers.toNat files

/-!  `CompressDirectoryUseCase.Execute` (compress_directory.go lines
41-109), the legacy sequential directory use case. -/

/-- Source `usecases.DirectoryCompressionResult` (compress_directory.go lines
32-38). -/
structure DirectoryCompressionResult where
  TotalFiles : Int := 0
  SuccessCount : Int := 0
  FailedCount : Int := 0
  Results : List CompressionResult := []
  Errors : List GoErr := []
deriving DecidableEq, Repr

/-- Collaborator behaviour for one `CompressDirectoryUseCase.Execute` run.
`compress` models the repository's compressors, which always return a
non-nil result pointer alongside a nil error on success. -/
structure DExecEnv where
  inputDirExists : Bool := true
  createOutputDir : Option GoErr := none
  listPDFFiles : Except GoErr (List String) := .ok []
  validate : Option GoErr := none
  fileInfo : String → Except GoErr Int := fun _ => .ok 0
  compress : String → Except GoErr CompressionResult := fun _ => .error (.msg "")

/-- The per-file body of the loop in `CompressDirectoryUseCase.Execute`
(compress_directory.go lines 80-106). -/
def compressDirectoryStep (env : DExecEnv) (res : DirectoryCompressionResult)
    (inputFile : String) : DirectoryCompressionResult :=
  match env.fileInfo inputFile with
  | .error e =>
    { res with
      Errors := res.Errors ++ [.wrap "ошибка получения информации о файле" e]
      FailedCount := res.FailedCount + 1 }
  | .ok size =>
    match env.compress inputFile with
    | .error e =>
      { res with
        Errors := res.Errors ++ [.wrap "ошибка сжатия файла" e]
        FailedCount := res.FailedCount + 1 }
    | .ok r =>
      let r := ({ r with OriginalSize := size }).CalculateCompressionRatio
      { res with Results := res.Results ++ [r], SuccessCount := res.SuccessCount + 1 }

/-- Source `CompressDirectoryUseCase.Execute` (compress_directory.go lines 41-109):
aborts with `ErrDirectoryNotFound` when the input directory is missing,
wraps directory-creation and listing errors, **returns `ErrNoFilesFound`
when the listing is empty**, validates the configuration, then folds the
per-file loop over the file list. -/
def compressDirectoryExecute (env : DExecEnv) : Except GoErr DirectoryCompressionResult :=
  if env.inputDirExists = false then .error ErrDirectoryNotFound
  else
    match env.createOutputDir with
    | some e => .error (.wrap "ошибка создания выходной директории" e)
    | none =>
      match env.listPDFFiles with
      | .error e => .error (.wrap "ошибка получения списка файлов" e)
      | .ok files =>
        if files.length = 0 then .error ErrNoFilesFound
        else
          match env.validate with
          | some e => .error (.wrap "ошибка валидации конфигурации" e)
          | none =>
            .ok (files.foldl (compressDirectoryStep env)
              { TotalFiles := (files.length : Int) })

/-!  File inventory (`FileSystemRepository.ListPDFFiles`, part_002 lines
48-69).  `filepath.WalkDir` is abstracted as the list of visit events it
generates over the tree under the root (each entry of every subdirectory,
including erroring ones); the callback and the final `sort.Strings` are
embedded from the source.  `sort.Strings` sorts ascending; it is modelled
by `List.insertionSort`, which produces exactly a `≤`-sorted permutation. -/

/-- One `filepath.WalkDir` callback invocation: the visited path, its base
name, whether it is a directory, and the traversal/stat error passed to the
callback (if any). -/
structure WalkEvent where
  path : String
  name : String
  isDir : Bool := false
  err : Option GoErr := none
deriving DecidableEq, Repr

/-- Source `filepath.Ext` of a base name (Go: the suffix starting at the final dot
of the final path element, empty when there is none), scanning from the end
and stopping at a path separator. -/
def goExtAux : List Char → List Char → List Char
  | [], _ => []
  | c :: rest, acc =>
    if c = '/' then []
    else if c = '.' then '.' :: acc
    else goExtAux rest (c :: acc)

/-- Source `filepath.Ext` on a string. -/
def goExt (s : String) : String := ⟨goExtAux s.data.reverse []⟩

/-- Source `strings.EqualFold` restricted to the ASCII folding the `.pdf`
comparison exercises. -/
def equalFold (a b : String) : Bool :=
  a.data.map Char.toLower == b.data.map Char.toLower

/-- The `WalkDir` callback of `ListPDFFiles` (part_002 lines 51-62): a
non-nil traversal error skips the entry (`return nil`), directories are
skipped, and files whose extension case-insensitively equals `.pdf` are
appended to the accumulator. -/
def listPDFFilesCallback (acc : List String) (e : WalkEvent) : List String :=
  if e.err.isSome then acc
  else if e.isDir then acc
  else if equalFold (goExt e.name) ".pdf" then acc ++ [e.path]
  else acc

/-- Source `FileSystemRepository.ListPDFFiles` (part_002 lines 48-69): fold the
callback over the walk events, then `sort.Strings`.  The callback always
returns `nil`, so `WalkDir` — and hence the function — never returns an
error. -/
def ListPDFFiles (events : List WalkEvent) : Except GoErr (List String) :=
  .ok (List.insertionSort (· ≤ ·) (events.foldl listPDFFilesCallback []))

/-- The entries the scan keeps: no traversal error, not a directory,
`.pdf` extension up to case. -/
def pdfMatch (e : WalkEvent) : Bool :=
  e.err.isNone && !e.isDir && equalFold (goExt e.name) ".pdf"

/-!  Helper lemmas about the progress aggregator.  -/

/-- Source `UpdateProgress` only rewrites the `Progress` percentage. -/
theorem updateProgress_TotalFiles (ps : ProcessingStatus) :
    ps.UpdateProgress.TotalFiles = ps.TotalFiles := by
  unfold ProcessingStatus.UpdateProgress; split <;> rfl

theorem updateProgress_ProcessedFiles (ps : ProcessingStatus) :
    ps.UpdateProgress.ProcessedFiles = ps.ProcessedFiles := by
  unfold ProcessingStatus.UpdateProgress; split <;> rfl

theorem updateProgress_SuccessfulFiles (ps : ProcessingStatus) :
    ps.UpdateProgress.SuccessfulFiles = ps.SuccessfulFiles := by
  unfold ProcessingStatus.UpdateProgress; split <;> rfl

theorem updateProgress_FailedFiles (ps : ProcessingStatus) :
    ps.UpdateProgress.FailedFiles = ps.FailedFiles := by
  unfold ProcessingStatus.UpdateProgress; split <;> rfl

theorem updateProgress_TotalOriginalSize (ps : ProcessingStatus) :
    ps.UpdateProgress.TotalOriginalSize = ps.TotalOriginalSize := by
  unfold ProcessingStatus.UpdateProgress; split <;> rfl

theorem updateProgress_TotalCompressedSize (ps : ProcessingStatus) :
    ps.UpdateProgress.TotalCompressedSize = ps.TotalCompressedSize := by
  unfold ProcessingStatus.UpdateProgress; split <;> rfl

theorem updateProgress_TotalSavedSpace (ps : ProcessingStatus) :
    ps.UpdateProgress.TotalSavedSpace = ps.TotalSavedSpace := by
  unfold ProcessingStatus.UpdateProgress; split <;> rfl

theorem updateProgress_AverageCompression (ps : ProcessingStatus) :
    ps.UpdateProgress.AverageCompression = ps.AverageCompression := by
  unfold ProcessingStatus.UpdateProgress; split <;> rfl

/-- Every `AddResult` call advances `ProcessedFiles` by exactly one. -/
theorem addResult_ProcessedFiles (ps : ProcessingStatus) (r : CompressionResult) :
    (ps.AddResult r).ProcessedFiles = ps.ProcessedFiles + 1 := by
  by_cases h : r.Success = true ∧ r.Error = none <;>
    by_cases h2 : 0 < ps.TotalOriginalSize + r.OriginalSize <;>
      simp [ProcessingStatus.AddResult, h, h2, updateProgress_ProcessedFiles]

/-- Every `AddResult` call advances `SuccessfulFiles + FailedFiles` by
exactly one (the two branches of the `if` increment one of the two). -/
theorem addResult_success_add_fail (ps : ProcessingStatus) (r : CompressionResult) :
    (ps.AddResult r).SuccessfulFiles + (ps.AddResult r).FailedFiles =
      ps.SuccessfulFiles + ps.FailedFiles + 1 := by
  by_cases h : r.Success = true ∧ r.Error = none <;>
    by_cases h2 : 0 < ps.TotalOriginalSize + r.OriginalSize <;>
      simp [ProcessingStatus.AddResult, h, h2, updateProgress_SuccessfulFiles,
        updateProgress_FailedFiles] <;> omega

/-- Source `AddResult` never touches `TotalFiles`. -/
theorem addResult_TotalFiles (ps : ProcessingStatus) (r : CompressionResult) :
    (ps.AddResult r).TotalFiles = ps.TotalFiles := by
  by_cases h : r.Success = true ∧ r.Error = none <;>
    by_cases h2 : 0 < ps.TotalOriginalSize + r.OriginalSize <;>
      simp [ProcessingStatus.AddResult, h, h2, updateProgress_TotalFiles]

/-- Source `addResults` advances `ProcessedFiles` by the number of consumed
results. -/
theorem addResults_ProcessedFiles (rs : List CompressionResult) (ps : ProcessingStatus) :
    (addResults ps rs).ProcessedFiles = ps.ProcessedFiles + rs.length := by
  induction rs generalizing ps with
  | nil => simp [addResults]
  | cons r rs ih =>
    have : addResults ps (r :: rs) = addResults (ps.AddResult r) rs := rfl
    rw [this, ih, addResult_ProcessedFiles]
    simp only [List.length_cons]
    push_cast
    ring

/-- Source `addResults` advances `SuccessfulFiles + FailedFiles` by the number of
consumed results. -/
theorem addResults_success_add_fail (rs : List CompressionResult) (ps : ProcessingStatus) :
    (addResults ps rs).SuccessfulFiles + (addResults ps rs).FailedFiles =
      ps.SuccessfulFiles + ps.FailedFiles + rs.length := by
  induction rs generalizing ps with
  | nil => simp [addResults]
  | cons r rs ih =>
    have : addResults ps (r :: rs) = addResults (ps.AddResult r) rs := rfl
    rw [this, ih, addResult_success_add_fail]
    simp only [List.length_cons]
    push_cast
    ring

/-- Source `addResults` never touches `TotalFiles`. -/
theorem addResults_TotalFiles (rs : List CompressionResult) (ps : ProcessingStatus) :
    (addResults ps rs).TotalFiles = ps.TotalFiles := by
  induction rs generalizing ps with
  | nil => rfl
  | cons r rs ih =>
    have : addResults ps (r :: rs) = addResults (ps.AddResult r) rs := rfl
    rw [this, ih, addResult_TotalFiles]

/-- The aggregate state of a batch run: `Execute` initializes the status
with `NewProcessingStatus(0)`, sets `status.TotalFiles = len(files)` after
scanning (part_006 line 111), then calls `status.AddResult` once per
received worker result (part_006 line 165). -/
def runAggregate (n : Int) (rs : List CompressionResult) : ProcessingStatus :=
  addResults { NewProcessingStatus 0 with TotalFiles := n } rs

/-- C6 (confirmed): after every prefix of the result stream the aggregate
state satisfies `ProcessedFiles = SuccessfulFiles + FailedFiles`; whenever
the stream carries at most `TotalFiles` results — as in every batch run,
where each of the `TotalFiles` jobs yields exactly one result —
`ProcessedFiles ≤ TotalFiles` holds throughout, with equality
`ProcessedFiles = SuccessfulFiles + FailedFiles = TotalFiles` at
completion of the run. -/
theorem aggregator_count_invariants (n : Int) (rs : List CompressionResult) :
    (∀ k : Nat,
      (runAggregate n (rs.take k)).ProcessedFiles =
        (runAggregate n (rs.take k)).SuccessfulFiles +
          (runAggregate n (rs.take k)).FailedFiles)
    ∧ ((rs.length : Int) ≤ n → ∀ k : Nat,
        (runAggregate n (rs.take k)).ProcessedFiles ≤
          (runAggregate n (rs.take k)).TotalFiles)
    ∧ ((rs.length : Int) = n →
        (runAggregate n rs).ProcessedFiles =
            (runAggregate n rs).SuccessfulFiles + (runAggregate n rs).FailedFiles
        ∧ (runAggregate n rs).ProcessedFiles = (runAggregate n rs).TotalFiles) := by
  refine ⟨fun k => ?_, fun hle k => ?_, fun heq => ⟨?_, ?_⟩⟩
  · rw [runAggregate, addResults_ProcessedFiles, addResults_success_add_fail]
    simp [NewProcessingStatus]
  · rw [runAggregate, addResults_ProcessedFiles, addResults_TotalFiles]
    have h : (rs.take k).length ≤ rs.length := by
      simp [List.length_take]
    simp only [NewProcessingStatus]
    omega
  · rw [runAggregate, addResults_ProcessedFiles, addResults_success_add_fail]
    simp [NewProcessingStatus]
  · rw [runAggregate, addResults_ProcessedFiles, addResults_TotalFiles]
    simp [NewProcessingStatus]
    omega

/-- C6 witness: a completed three-result run over `TotalFiles = 3` (two
successes, one failure) reaches
`ProcessedFiles = SuccessfulFiles + FailedFiles = TotalFiles`. -/
theorem aggregator_count_invariants_witness :
    (runAggregate 3 [{ Success := true }, { Success := false },
        { Success := true }]).ProcessedFiles =
      (runAggregate 3 [{ Success := true }, { Success := false },
          { Success := true }]).SuccessfulFiles +
        (runAggregate 3 [{ Success := true }, { Success := false },
            { Success := true }]).FailedFiles
    ∧ (runAggregate 3 [{ Success := true }, { Success := false },
          { Success := true }]).ProcessedFiles =
        (runAggregate 3 [{ Success := true }, { Success := false },
            { Success := true }]).TotalFiles :=
  (aggregator_count_invariants 3 [{ Success := true }, { Success := false },
    { Success := true }]).2.2 (by decide)

/-- C7 (confirmed): a successful result adds its original and compressed
sizes to the cumulative totals and the running average is recomputed as
`(totalOriginal - totalCompressed) / totalOriginal * 100` from the two
cumulative totals (so by construction it is not a mean of per-file ratios);
a result that is not a success contributes to no byte total. -/
theorem aggregator_cumulative_totals (ps : ProcessingStatus) (r : CompressionResult) :
    (r.Success = true ∧ r.Error = none →
      (ps.AddResult r).TotalOriginalSize = ps.TotalOriginalSize + r.OriginalSize
      ∧ (ps.AddResult r).TotalCompressedSize = ps.TotalCompressedSize + r.CompressedSize
      ∧ (ps.AddResult r).TotalSavedSpace = ps.TotalSavedSpace + r.SavedSpace
      ∧ (0 < (ps.AddResult r).TotalOriginalSize →
          (ps.AddResult r).AverageCompression =
            (((ps.AddResult r).TotalOriginalSize : ℚ) -
                ((ps.AddResult r).TotalCompressedSize : ℚ)) /
              ((ps.AddResult r).TotalOriginalSize : ℚ) * 100))
    ∧ (¬(r.Success = true ∧ r.Error = none) →
        (ps.AddResult r).TotalOriginalSize = ps.TotalOriginalSize
        ∧ (ps.AddResult r).TotalCompressedSize = ps.TotalCompressedSize
        ∧ (ps.AddResult r).TotalSavedSpace = ps.TotalSavedSpace) := by
  constructor
  · intro h
    by_cases h2 : 0 < ps.TotalOriginalSize + r.OriginalSize <;>
      simp [ProcessingStatus.AddResult, h, h2, updateProgress_TotalOriginalSize,
        updateProgress_TotalCompressedSize, updateProgress_TotalSavedSpace,
        updateProgress_AverageCompression]
  · intro h
    simp [ProcessingStatus.AddResult, h, updateProgress_TotalOriginalSize,
      updateProgress_TotalCompressedSize, updateProgress_TotalSavedSpace]

/-- C7 witness: consuming a successful 1000→600 result from a fresh status
accumulates both totals and sets the average to `(1000-600)/1000*100 = 40`;
the spec scenario's failed result leaves the totals at zero. -/
theorem aggregator_cumulative_totals_witness :
    ((NewProcessingStatus 5).AddResult
        { OriginalSize := 1000, CompressedSize := 600, SavedSpace := 400,
          Success := true }).TotalOriginalSize = 0 + 1000
    ∧ ((NewProcessingStatus 5).AddResult
        { OriginalSize := 1000, Success := false,
          Error := some (.msg "ошибка") }).TotalOriginalSize = 0 :=
  ⟨((aggregator_cumulative_totals (NewProcessingStatus 5)
      { OriginalSize := 1000, CompressedSize := 600, SavedSpace := 400,
        Success := true }).1 ⟨rfl, rfl⟩).1,
   ((aggregator_cumulative_totals (NewProcessingStatus 5)
      { OriginalSize := 1000, Success := false,
        Error := some (.msg "ошибка") }).2 (by simp)).1⟩

/-- C10 (confirmed): `AddResult` counts a result as successful only when
`Success` is true **and** `Error` is nil; with `Success = true` but a
non-nil `Error` it increments `FailedFiles`, leaves `SuccessfulFiles`
alone, and adds nothing to the cumulative byte totals. -/
theorem addResult_success_requires_nil_error (ps : ProcessingStatus)
    (r : CompressionResult) (e : GoErr)
    (hs : r.Success = true) (he : r.Error = some e) :
    (ps.AddResult r).FailedFiles = ps.FailedFiles + 1
    ∧ (ps.AddResult r).SuccessfulFiles = ps.SuccessfulFiles
    ∧ (ps.AddResult r).TotalOriginalSize = ps.TotalOriginalSize
    ∧ (ps.AddResult r).TotalCompressedSize = ps.TotalCompressedSize
    ∧ (ps.AddResult r).TotalSavedSpace = ps.TotalSavedSpace := by
  have h : ¬(r.Success = true ∧ r.Error = none) := by simp [he]
  simp [ProcessingStatus.AddResult, h, updateProgress_FailedFiles,
    updateProgress_SuccessfulFiles, updateProgress_TotalOriginalSize,
    updateProgress_TotalCompressedSize, updateProgress_TotalSavedSpace]

/-- C10 witness: a `Success = true` result carrying an error is routed to
`FailedFiles` and its 1000 original bytes are not accumulated. -/
theorem addResult_success_requires_nil_error_witness :
    ((NewProcessingStatus 2).AddResult
        { OriginalSize := 1000, Success := true,
          Error := some (.msg "ошибка замены") }).FailedFiles =
      (NewProcessingStatus 2).FailedFiles + 1
    ∧ ((NewProcessingStatus 2).AddResult
        { OriginalSize := 1000, Success := true,
          Error := some (.msg "ошибка замены") }).TotalOriginalSize =
      (NewProcessingStatus 2).TotalOriginalSize :=
  ⟨(addResult_success_requires_nil_error (NewProcessingStatus 2)
      { OriginalSize := 1000, Success := true, Error := some (.msg "ошибка замены") }
      (.msg "ошибка замены") rfl rfl).1,
   (addResult_success_requires_nil_error (NewProcessingStatus 2)
      { OriginalSize := 1000, Success := true, Error := some (.msg "ошибка замены") }
      (.msg "ошибка замены") rfl rfl).2.2.1⟩

/-- C8 (confirmed): when `OriginalSize > 0`, `CalculateCompressionRatio`
makes the derived fields satisfy `CompressedSize = OriginalSize - SavedSpace`
and `CompressionRatio = SavedSpace / OriginalSize * 100` exactly, with the
ratio strictly negative (not clamped) when the output grew; when
`OriginalSize ≤ 0` the derived fields are not recomputed, so they stay at
zero (they are zero at every construction site before the call). -/
theorem compressionResult_derived_fields (cr : CompressionResult) :
    (0 < cr.OriginalSize →
      cr.CalculateCompressionRatio.CompressedSize =
          cr.CalculateCompressionRatio.OriginalSize -
            cr.CalculateCompressionRatio.SavedSpace
      ∧ cr.CalculateCompressionRatio.CompressionRatio =
          (cr.CalculateCompressionRatio.SavedSpace : ℚ) /
            (cr.CalculateCompressionRatio.OriginalSize : ℚ) * 100
      ∧ (cr.OriginalSize < cr.CompressedSize →
          cr.CalculateCompressionRatio.CompressionRatio < 0))
    ∧ (cr.OriginalSize ≤ 0 → cr.CompressionRatio = 0 → cr.SavedSpace = 0 →
        cr.CalculateCompressionRatio.CompressionRatio = 0
        ∧ cr.CalculateCompressionRatio.SavedSpace = 0) := by
  constructor
  · intro h
    simp only [CompressionResult.CalculateCompressionRatio, if_pos h]
    refine ⟨by omega, by push_cast; ring, fun hgrow => ?_⟩
    have hnum : ((cr.OriginalSize : ℚ) - (cr.CompressedSize : ℚ)) < 0 := by
      have : (cr.OriginalSize : ℚ) < (cr.CompressedSize : ℚ) := by exact_mod_cast hgrow
      linarith
    have hden : (0 : ℚ) < (cr.OriginalSize : ℚ) := by exact_mod_cast h
    have := div_neg_of_neg_of_pos hnum hden
    nlinarith
  · intro h hr hs
    simp only [CompressionResult.CalculateCompressionRatio, if_neg (not_lt.mpr h)]
    exact ⟨hr, hs⟩

/-- C8 witness: a 1000→1200 "compression" (output grew) yields
`SavedSpace = -200`, `CompressedSize = 1000 - (-200)`, and the exact
negative ratio `-200/1000*100 = -20`; a zero-size original with zeroed
derived fields keeps them at zero. -/
theorem compressionResult_derived_fields_witness :
    (CompressionResult.CalculateCompressionRatio
        { OriginalSize := 1000, CompressedSize := 1200 }).CompressedSize =
      (CompressionResult.CalculateCompressionRatio
        { OriginalSize := 1000, CompressedSize := 1200 }).OriginalSize -
        (CompressionResult.CalculateCompressionRatio
          { OriginalSize := 1000, CompressedSize := 1200 }).SavedSpace
    ∧ (CompressionResult.CalculateCompressionRatio
        { OriginalSize := 1000, CompressedSize := 1200 }).CompressionRatio < 0
    ∧ (CompressionResult.CalculateCompressionRatio
        { OriginalSize := 0, CompressedSize := 300 }).SavedSpace = 0 :=
  ⟨((compressionResult_derived_fields
      { OriginalSize := 1000, CompressedSize := 1200 }).1 (by decide)).1,
   ((compressionResult_derived_fields
      { OriginalSize := 1000, CompressedSize := 1200 }).1 (by decide)).2.2 (by decide),
   ((compressionResult_derived_fields
      { OriginalSize := 0, CompressedSize := 300 }).2 (by decide) rfl rfl).2⟩

/-- C1 counterexample: with an existing source directory and an empty file
listing, `ProcessPDFsUseCase.Execute` returns `nil` — not a "no files
found" error — and leaves the final status phase at `Completed`, not
`Failed` (part_006 lines 104-109 call `status.Complete()` and
`return nil`). -/
theorem zeroFiles_run_not_failed :
    (processPDFsExecuteSetup
        { sourceExists := true, createTargetDir := none,
          listPDFFiles := .ok [], validateCompression := none } {}).retErr = none
    ∧ (processPDFsExecuteSetup
        { sourceExists := true, createTargetDir := none,
          listPDFFiles := .ok [], validateCompression := none }
          {}).finalStatus.Phase = .PhaseCompleted :=
  ⟨rfl, rfl⟩

/-- C1 (corrected): when the inventory returns zero files the run does stop
before the Compressing phase with zero workers spawned, but
`ProcessPDFsUseCase.Execute` treats this as successful completion — it
returns `nil` with the status marked `Completed` (phase `Completed`,
`IsComplete` set) after only logging a warning; a "no files found"
terminal error (`ErrNoFilesFound`) is produced only by the legacy
`CompressDirectoryUseCase.Execute`. -/
theorem zeroFiles_aborts_completed (env : PExecEnv) (config : GoConfig)
    (denv : DExecEnv) :
    (env.listPDFFiles = .ok [] → env.sourceExists = true →
      (config.ReplaceOriginal = true ∨ env.createTargetDir = none) →
      (processPDFsExecuteSetup env config).workersSpawned = 0
      ∧ (processPDFsExecuteSetup env config).enteredCompressing = false
      ∧ (processPDFsExecuteSetup env config).retErr = none
      ∧ (processPDFsExecuteSetup env config).finalStatus.Phase = .PhaseCompleted
      ∧ (processPDFsExecuteSetup env config).finalStatus.IsComplete = true)
    ∧ (denv.listPDFFiles = .ok [] → denv.inputDirExists = true →
        denv.createOutputDir = none →
        compressDirectoryExecute denv = .error ErrNoFilesFound) := by
  constructor
  · intro hlist hsrc htd
    have hmk : (if config.ReplaceOriginal then none else env.createTargetDir) = none := by
      rcases htd with h | h <;> simp [h]
    simp [processPDFsExecuteSetup, hsrc, hlist, hmk, PExecResult.workersSpawned,
      PExecResult.enteredCompressing, PExecResult.retErr, PExecResult.finalStatus,
      ProcessingStatus.Complete]
  · intro hlist hdir hout
    simp [compressDirectoryExecute, hdir, hout, hlist]

/-- C1 witness: the amended statement at a concrete empty-listing
environment. -/
theorem zeroFiles_aborts_completed_witness :
    (processPDFsExecuteSetup { listPDFFiles := .ok [] } {}).workersSpawned = 0
    ∧ compressDirectoryExecute { listPDFFiles := .ok [] } = .error ErrNoFilesFound :=
  ⟨((zeroFiles_aborts_completed { listPDFFiles := .ok [] } {}
      { listPDFFiles := .ok [] }).1 rfl rfl (Or.inr rfl)).1,
   (zeroFiles_aborts_completed { listPDFFiles := .ok [] } {}
      { listPDFFiles := .ok [] }).2 rfl rfl rfl⟩

/-- C3 (confirmed): given an existing temp file, (i) a step-1 failure
(injected, or the original missing) returns the wrapped backup error with
the filesystem unchanged; (ii) a step-2 failure returns the wrapped swap
error regardless of the rollback's own outcome, and when the rollback
rename itself succeeds the original content is back at `originalFile`;
(iii) a step-3 (`os.Remove` of the backup) failure still returns success. -/
theorem replace_error_paths (env : ReplaceEnv) (orig temp : String) (fs : FS)
    (t : Content) (ht : fs temp = some t) :
    (∀ e, env.renameToBackup = some e →
      replaceOriginalFile env orig temp fs =
        (.error (.wrap "ошибка создания резервной копии" e), fs))
    ∧ (env.renameToBackup = none → fs orig = none →
      replaceOriginalFile env orig temp fs =
        (.error (.wrap "ошибка создания резервной копии" (.os 2)), fs))
    ∧ (∀ e c, env.renameToBackup = none → fs orig = some c →
        env.renameTempToOriginal = some e →
        (replaceOriginalFile env orig temp fs).1 =
            .error (.wrap "ошибка замены файла" e)
        ∧ (env.rollbackRename = none →
            (replaceOriginalFile env orig temp fs).2 orig = some c))
    ∧ (∀ e c, env.renameToBackup = none → env.renameTempToOriginal = none →
        fs orig = some c → temp ≠ orig → env.removeBackup = some e →
        (replaceOriginalFile env orig temp fs).1 = .ok ()) := by
  have htn : (fs temp).isNone = false := by simp [ht]
  refine ⟨fun e h1 => ?_, fun h1 horig => ?_, fun e c h1 horig h2 => ?_,
    fun e c h1 h2 horig hto h3 => ?_⟩
  · simp [replaceOriginalFile, htn, osRename, h1]
  · simp [replaceOriginalFile, htn, osRename, h1, horig]
  · constructor
    · simp [replaceOriginalFile, htn, osRename, h1, horig, h2]
    · intro hrb
      simp [replaceOriginalFile, htn, osRename, h1, horig, h2, hrb]
  · by_cases hb : temp = orig ++ ".backup"
    · have ht2 : fs (orig ++ ".backup") = some t := hb ▸ ht
      simp [replaceOriginalFile, htn, osRename, osRemove, h1, h2, h3, horig, hb, ht2]
    · simp [replaceOriginalFile, htn, osRename, osRemove, h1, h2, h3, horig, hb, hto, ht]

/-- C3 witness: on a two-file filesystem (`a.pdf` and its temp) with only
the backup-removal call failing, the swap still reports success. -/
theorem replace_error_paths_witness :
    (replaceOriginalFile { removeBackup := some (.os 13) } "a.pdf" "a.pdf.tmp"
        (fun q => if q = "a.pdf" then some 1
                  else if q = "a.pdf.tmp" then some 2 else none)).1 = .ok () :=
  (replace_error_paths { removeBackup := some (.os 13) } "a.pdf" "a.pdf.tmp"
      (fun q => if q = "a.pdf" then some 1
                else if q = "a.pdf.tmp" then some 2 else none) 2
      (by simp)).2.2.2 (.os 13) 1 rfl rfl (by simp) (by decide) rfl

/-- The `WalkDir` callback keeps exactly the `pdfMatch` entries. -/
theorem listPDFFilesCallback_eq (acc : List String) (e : WalkEvent) :
    listPDFFilesCallback acc e = if pdfMatch e then acc ++ [e.path] else acc := by
  cases he : e.err <;> cases hd : e.isDir <;>
    by_cases hx : equalFold (goExt e.name) ".pdf" <;>
      simp [listPDFFilesCallback, pdfMatch, he, hd, hx]

/-- Folding the callback appends the matched paths in visit order. -/
theorem foldl_listPDFFilesCallback (events : List WalkEvent) (acc : List String) :
    events.foldl listPDFFilesCallback acc =
      acc ++ (events.filter pdfMatch).map WalkEvent.path := by
  induction events generalizing acc with
  | nil => simp
  | cons e es ih =>
    rw [List.foldl_cons, ih, listPDFFilesCallback_eq]
    by_cases h : pdfMatch e <;> simp [h, List.filter_cons]

/-- C9 (confirmed): for every walk of a root directory, `ListPDFFiles`
(i) returns `ok` of the `sort.Strings`-sorted matched paths — entries
whose traversal/stat errored are skipped via the filter rather than
aborting the scan, which also means the function never returns an error;
(ii) the returned list is `≤`-sorted and a permutation of the matched
paths from all subdirectories; (iii) when no entry matches, the result is
the empty list, not an error. -/
theorem listPDFFiles_contract (events : List WalkEvent) :
    ListPDFFiles events =
      .ok (List.insertionSort (· ≤ ·) ((events.filter pdfMatch).map WalkEvent.path))
    ∧ (∃ l, ListPDFFiles events = .ok l
        ∧ l.Sorted (· ≤ ·)
        ∧ l.Perm ((events.filter pdfMatch).map WalkEvent.path))
    ∧ (events.filter pdfMatch = [] → ListPDFFiles events = .ok []) := by
  have hfold := foldl_listPDFFilesCallback events []
  have hmain : ListPDFFiles events =
      .ok (List.insertionSort (· ≤ ·) ((events.filter pdfMatch).map WalkEvent.path)) := by
    unfold ListPDFFiles
    rw [hfold]
    simp
  refine ⟨hmain, ⟨_, hmain, List.sorted_insertionSort _ _, List.perm_insertionSort _ _⟩,
    fun hempty => ?_⟩
  rw [hmain, hempty]
  simp

/-- C9 witness: a walk with one unreadable entry, one directory, one
non-PDF file and two PDF files (one upper-case extension, visited out of
order) yields exactly the two PDF paths, sorted, with no error. -/
theorem listPDFFiles_contract_witness :
    ListPDFFiles
        [{ path := "/r/b.PDF", name := "b.PDF" },
         { path := "/r/broken.pdf", name := "broken.pdf", err := some (.os 13) },
         { path := "/r/sub", name := "sub", isDir := true },
         { path := "/r/notes.txt", name := "notes.txt" },
         { path := "/r/a.pdf", name := "a.pdf" }] = .ok ["/r/a.pdf", "/r/b.PDF"]
    ∧ ListPDFFiles
        [{ path := "/r/notes.txt", name := "notes.txt" },
         { path := "/r/sub", name := "sub", isDir := true }] = .ok [] := by
  constructor
  · have h := (listPDFFiles_contract
      [{ path := "/r/b.PDF", name := "b.PDF" },
       { path := "/r/broken.pdf", name := "broken.pdf", err := some (.os 13) },
       { path := "/r/sub", name := "sub", isDir := true },
       { path := "/r/notes.txt", name := "notes.txt" },
       { path := "/r/a.pdf", name := "a.pdf" }]).1
    rw [h]
    have hf : List.filter pdfMatch
        [({ path := "/r/b.PDF", name := "b.PDF" } : WalkEvent),
         { path := "/r/broken.pdf", name := "broken.pdf", err := some (.os 13) },
         { path := "/r/sub", name := "sub", isDir := true },
         { path := "/r/notes.txt", name := "notes.txt" },
         { path := "/r/a.pdf", name := "a.pdf" }] =
        [{ path := "/r/b.PDF", name := "b.PDF" },
         { path := "/r/a.pdf", name := "a.pdf" }] := by decide
    rw [hf]
    refine congrArg Except.ok ?_
    simp [List.insertionSort, List.orderedInsert, String.le_iff_toList_le]
    decide
  · exact (listPDFFiles_contract
      [{ path := "/r/notes.txt", name := "notes.txt" },
       { path := "/r/sub", name := "sub", isDir := true }]).2.2 rfl

/-- C2 (code bug): with `RetryAttempts ≤ 0`, the loop
`for attempt := 0; attempt < RetryAttempts; attempt++` of `worker` runs
zero times, so the compressor is never invoked, `err` stays nil and the
`result` pointer stays nil; the code then dereferences it
(`result.CurrentFile = inputFile`) — a nil-pointer panic instead of the
single attempt and well-defined Outcome the specification requires. -/
theorem worker_zero_attempts_panics (retryAttempts : Int)
    (h : retryAttempts ≤ 0)
    (compress : Nat → Option CompressionResult × Option GoErr)
    (size : Int) (inputFile : String) :
    workerProcessFile (.ok size) compress retryAttempts inputFile = .panicked 0 0 := by
  have hzero : ¬(((0 : Nat) : Int) < retryAttempts) := by omega
  have hloop : workerRetryLoop compress retryAttempts 0 none none 0 0 =
      (none, none, 0, 0) := by
    unfold workerRetryLoop
    rw [dif_neg hzero]
  simp [workerProcessFile, hloop]

/-- C2 witness: `RetryAttempts = 0` on a stat-able 1000-byte file gives
zero compressor calls and the nil dereference. -/
theorem worker_zero_attempts_panics_witness :
    workerProcessFile (.ok 1000) (fun _ => (none, none)) 0 "a.pdf" = .panicked 0 0 :=
  worker_zero_attempts_panics 0 (by decide) (fun _ => (none, none)) 1000 "a.pdf"

/-- Unrolling the retry loop when every attempt below `N` errors: all `N`
remaining iterations run, sleeping after each failed attempt except the
last, and the loop exits with the final attempt's result and error. -/
theorem workerRetryLoop_allFail
    (compress : Nat → Option CompressionResult × Option GoErr) (N : Int)
    (hc : ∀ i : Nat, (i : Int) < N → ((compress i).2).isSome = true) :
    ∀ (fuel attempt : Nat), fuel = (N - attempt).toNat → (attempt : Int) < N →
    ∀ (r : Option CompressionResult) (e : Option GoErr) (c s : Nat),
      workerRetryLoop compress N attempt r e c s =
        ((compress (N.toNat - 1)).1, (compress (N.toNat - 1)).2,
          c + (N.toNat - attempt), s + (N.toNat - 1 - attempt)) := by
  intro fuel
  induction fuel with
  | zero =>
    intro attempt hf hlt
    omega
  | succ fuel ih =>
    intro attempt hf hlt r e c s
    obtain ⟨ea, hea⟩ := Option.isSome_iff_exists.mp (hc attempt hlt)
    unfold workerRetryLoop
    rw [dif_pos hlt]
    simp only [hea]
    by_cases hlast : (attempt : Int) < N - 1
    · rw [if_pos hlast, ih (attempt + 1) (by omega) (by omega)]
      simp only [Prod.mk.injEq, true_and]
      exact ⟨by omega, by omega⟩
    · rw [if_neg hlast]
      have hstop : ¬(((attempt + 1 : Nat) : Int) < N) := by omega
      unfold workerRetryLoop
      rw [dif_neg hstop]
      have hattempt : attempt = N.toNat - 1 := by omega
      simp only [Prod.mk.injEq, ← hattempt, hea, true_and]
      exact ⟨by omega, by omega⟩

/-- Unrolling the retry loop when attempts below `k` error and attempt `k`
(`k < N`) succeeds: the loop stops at `k` with `k + 1` calls and `k`
sleeps, returning attempt `k`'s result with a nil error. -/
theorem workerRetryLoop_firstSuccess
    (compress : Nat → Option CompressionResult × Option GoErr) (N : Int) (k : Nat)
    (hk : (k : Int) < N)
    (hf : ∀ i : Nat, i < k → ((compress i).2).isSome = true)
    (hs : (compress k).2 = none) :
    ∀ (fuel attempt : Nat), fuel = k - attempt → attempt ≤ k →
    ∀ (r : Option CompressionResult) (e : Option GoErr) (c s : Nat),
      workerRetryLoop compress N attempt r e c s =
        ((compress k).1, none, c + (k + 1 - attempt), s + (k - attempt)) := by
  intro fuel
  induction fuel with
  | zero =>
    intro attempt hfuel hle r e c s
    have hak : attempt = k := by omega
    subst hak
    unfold workerRetryLoop
    rw [dif_pos hk]
    simp only [hs, Prod.mk.injEq, true_and]
    exact ⟨by omega, by omega⟩
  | succ fuel ih =>
    intro attempt hfuel hle r e c s
    have hak : attempt < k := by omega
    have hlt : (attempt : Int) < N := by omega
    obtain ⟨ea, hea⟩ := Option.isSome_iff_exists.mp (hf attempt hak)
    unfold workerRetryLoop
    rw [dif_pos hlt]
    simp only [hea]
    rw [if_pos (by omega : (attempt : Int) < N - 1),
      ih (attempt + 1) (by omega) (by omega)]
    simp only [Prod.mk.injEq, true_and]
    exact ⟨by omega, by omega⟩

/-- C5 (confirmed): (i) with `RetryAttempts = N ≥ 1` and a compressor
erroring on every attempt, the worker invokes the compressor exactly `N`
times, sleeps after every failed attempt except the last (`N - 1` sleeps),
and publishes a failed Outcome carrying the error of the final attempt and
the stat size; (ii) if attempts before `k < N` fail and attempt `k`
succeeds, the loop stops early after `k + 1` invocations and `k` sleeps
and publishes the successful result. -/
theorem worker_retry_contract :
    (∀ (N : Int) (errs : Nat → GoErr)
        (compress : Nat → Option CompressionResult × Option GoErr)
        (size : Int) (inputFile : String),
      1 ≤ N → (∀ i : Nat, (i : Int) < N → (compress i).2 = some (errs i)) →
      workerProcessFile (.ok size) compress N inputFile =
        .published { CurrentFile := inputFile, OriginalSize := size,
                     Success := false, Error := some (errs (N.toNat - 1)) }
          N.toNat (N.toNat - 1))
    ∧ (∀ (N : Int) (k : Nat)
        (compress : Nat → Option CompressionResult × Option GoErr)
        (r : CompressionResult) (size : Int) (inputFile : String),
      (k : Int) < N → (∀ i : Nat, i < k → ((compress i).2).isSome = true) →
      compress k = (some r, none) →
      workerProcessFile (.ok size) compress N inputFile =
        .published (CompressionResult.CalculateCompressionRatio
          { r with CurrentFile := inputFile, OriginalSize := size }) (k + 1) k) := by
  constructor
  · intro N errs compress size inputFile hN hc
    have hsome : ∀ i : Nat, (i : Int) < N → ((compress i).2).isSome = true := by
      intro i hi
      rw [hc i hi]
      rfl
    have hlast : ((N.toNat - 1 : Nat) : Int) < N := by omega
    have hloop := workerRetryLoop_allFail compress N hsome
      ((N - 0).toNat) 0 rfl (by omega) none none 0 0
    rw [hc (N.toNat - 1) hlast] at hloop
    simp only [workerProcessFile, hloop]
    norm_num
  · intro N k compress r size inputFile hk hf hsucc
    have hloop := workerRetryLoop_firstSuccess compress N k hk hf
      (by rw [hsucc]) (k - 0) 0 rfl (by omega) none none 0 0
    rw [hsucc] at hloop
    simp only [workerProcessFile, hloop]
    norm_num

/-- C5 witness: with three always-failing attempts the worker makes exactly
3 calls, 2 sleeps, and retains the third error (`os 2`); with a failure
then a success it stops after 2 calls and 1 sleep. -/
theorem worker_retry_contract_witness :
    workerProcessFile (.ok 500) (fun i => (none, some (.os i))) 3 "f.pdf" =
      .published { CurrentFile := "f.pdf", OriginalSize := 500,
                   Success := false, Error := some (.os 2) } 3 2
    ∧ workerProcessFile (.ok 500)
        (fun i => if i = 0 then (none, some (.os 0))
                  else (some { CompressedSize := 400, Success := true }, none)) 3 "f.pdf" =
      .published (CompressionResult.CalculateCompressionRatio
        { CompressedSize := 400, Success := true, CurrentFile := "f.pdf",
          OriginalSize := 500 }) 2 1 :=
  ⟨worker_retry_contract.1 3 (fun i => .os i) (fun i => (none, some (.os i)))
      500 "f.pdf" (by decide) (fun i _ => rfl),
   worker_retry_contract.2 3 1
      (fun i => if i = 0 then (none, some (.os 0))
                else (some { CompressedSize := 400, Success := true }, none))
      { CompressedSize := 400, Success := true } 500 "f.pdf" (by decide)
      (fun i hi => by interval_cases i <;> rfl) rfl⟩

/-- A two-file filesystem: the original `a.pdf` (content 1) and the temp
file `a.pdf.tmp` (content 2) produced by a successful compression. -/
def fsEx : FS := fun q =>
  if q = "a.pdf" then some 1 else if q = "a.pdf.tmp" then some 2 else none

/-- Source `fsEx` after step 1 of the protocol (original renamed to backup). -/
def fsExBackedUp : FS := renameFS "a.pdf" ("a.pdf" ++ ".backup") 1 fsEx

/-- C4 counterexample: after a successful step 1 the protocol sits at an
observable point between steps where `a.pdf` resolves to nothing (the
content is at `a.pdf.backup`), and when step 2 then fails and the rollback
rename also fails, the protocol terminates in that state — the original
path is left missing. -/
theorem replace_original_missing_between_steps :
    (RReach "a.pdf" "a.pdf.tmp" ⟨.start, fsEx⟩ ⟨.backedUp, fsExBackedUp⟩
      ∧ fsExBackedUp "a.pdf" = none)
    ∧ (RReach "a.pdf" "a.pdf.tmp" ⟨.start, fsEx⟩ ⟨.finished false, fsExBackedUp⟩
      ∧ fsExBackedUp "a.pdf" = none) := by
  have h1 : RStep "a.pdf" "a.pdf.tmp" ⟨.start, fsEx⟩ ⟨.backedUp, fsExBackedUp⟩ :=
    RStep.backupOk fsEx 1 (by decide) (by decide)
  have h2 : RStep "a.pdf" "a.pdf.tmp" ⟨.backedUp, fsExBackedUp⟩
      ⟨.finished false, fsExBackedUp⟩ :=
    RStep.swapFailRollbackFail fsExBackedUp
  have hmiss : fsExBackedUp "a.pdf" = none := by decide
  exact ⟨⟨Relation.ReflTransGen.single h1, hmiss⟩,
    ⟨Relation.ReflTransGen.head h1 (Relation.ReflTransGen.single h2), hmiss⟩⟩

/-- The phase-indexed invariant the protocol actually maintains: the
original content `c` (or, once swapped, the new content `t`) is always
present under `originalPath` or under the backup path. -/
def ReplaceInv (orig temp : String) (c t : Content) : RConf → Prop
  | ⟨.start, fs⟩ => fs orig = some c ∧ fs temp = some t
  | ⟨.backedUp, fs⟩ => fs (orig ++ ".backup") = some c ∧ fs temp = some t
  | ⟨.swapped, fs⟩ => fs orig = some t ∧ fs (orig ++ ".backup") = some c
  | ⟨.finished true, fs⟩ => fs orig = some t
  | ⟨.finished false, fs⟩ => fs orig = some c ∨ fs (orig ++ ".backup") = some c

/-- C4 (corrected): throughout every execution, at each observable point
the original path holds the pre-existing content or the new compressed
content, **or** the pre-existing content survives at the backup path (the
window after step 1, and the aftermath of a failed rollback, are exactly
the points where `originalPath` itself is missing); a run that terminates
successfully always leaves the new content at `originalPath`. -/
theorem replace_content_never_lost (orig temp : String) (c t : Content)
    (fs0 : FS) (conf : RConf)
    (hot : orig ≠ temp) (hbo : orig ++ ".backup" ≠ orig)
    (hbt : orig ++ ".backup" ≠ temp)
    (h0o : fs0 orig = some c) (h0t : fs0 temp = some t)
    (hr : RReach orig temp ⟨.start, fs0⟩ conf) :
    (conf.fs orig = some c ∨ conf.fs orig = some t
      ∨ conf.fs (orig ++ ".backup") = some c)
    ∧ (conf.ph = .finished true → conf.fs orig = some t) := by
  have hinv : ReplaceInv orig temp c t conf := by
    induction hr with
    | refl => exact ⟨h0o, h0t⟩
    | tail hprev hstep ih =>
      cases hstep with
      | statMissing fs hmiss =>
        exact Or.inl ih.1
      | backupOk fs c' hne hc' =>
        have hcc : c' = c := by
          rw [ih.1] at hc'
          exact (Option.some.inj hc').symm
        subst hcc
        refine ⟨?_, ?_⟩
        · simp [ReplaceInv, renameFS]
        · simp [renameFS, Ne.symm hbt, Ne.symm hot, ih.2]
      | backupFail fs hne =>
        exact Or.inl ih.1
      | swapOk fs t' ht' =>
        have htt : t' = t := by
          rw [ih.2] at ht'
          exact (Option.some.inj ht').symm
        subst htt
        refine ⟨?_, ?_⟩
        · simp [renameFS]
        · simp [renameFS, hbo, hbt, ih.1]
      | swapFailRollbackOk fs c'' hbk =>
        have hcc : c'' = c := by
          rw [ih.1] at hbk
          exact (Option.some.inj hbk).symm
        subst hcc
        exact Or.inl (by simp [renameFS])
      | swapFailRollbackFail fs =>
        exact Or.inr ih.1
      | cleanupOk fs c'' hbk =>
        simp only [ReplaceInv, removeFS]
        rw [if_neg (Ne.symm hbo)]
        exact ih.1
      | cleanupFail fs =>
        exact ih.1
  obtain ⟨ph, fs⟩ := conf
  match ph with
  | .start => exact ⟨Or.inl hinv.1, by intro h; cases h⟩
  | .backedUp => exact ⟨Or.inr (Or.inr hinv.1), by intro h; cases h⟩
  | .swapped => exact ⟨Or.inr (Or.inl hinv.1), by intro h; cases h⟩
  | .finished true => exact ⟨Or.inr (Or.inl hinv), fun _ => hinv⟩
  | .finished false =>
    refine ⟨?_, by intro h; simp at h⟩
    rcases hinv with h | h
    · exact Or.inl h
    · exact Or.inr (Or.inr h)

/-- C4 amended-claim witness: the invariant at the entry configuration of
the concrete two-file filesystem. -/
theorem replace_content_never_lost_witness :
    (fsEx "a.pdf" = some 1 ∨ fsEx "a.pdf" = some 2
      ∨ fsEx ("a.pdf" ++ ".backup") = some 1)
    ∧ ((RConf.mk .start fsEx).ph = .finished true → fsEx "a.pdf" = some 2) :=
  replace_content_never_lost "a.pdf" "a.pdf.tmp" 1 2 fsEx ⟨.start, fsEx⟩
    (by decide) (by decide) (by decide) (by decide) (by decide)
    Relation.ReflTransGen.refl

end Compress
